import Mathlib

/-!
# Verification of the `sql-schema` crate

Shallow embedding of the schema-diff engine (`src/diff.rs`), the migration
engine (`src/migration.rs`) and the path-template resolver / filename parser
(`src/path_template.rs`) of the `sql-schema` crate, together with proofs and
refutations of the specified properties.

Identifiers (`sqlparser::ast::Ident`) are modelled as `String`; expressions,
data types and other AST fragments the engines never inspect are likewise
carried as opaque `String`s so that the structural (`PartialEq`) equality the
Rust code relies on is preserved faithfully.
-/

namespace SqlSchema

/-- `sqlparser::ast::ObjectName`: a qualified name, a list of identifier
parts. -/
abbrev ObjectName := List String

/-- `sqlparser::ast::GeneratedAs`. -/
inductive GeneratedAs
  | always
  | byDefault
  | expStored
deriving DecidableEq

/-- The cases of `sqlparser::ast::ColumnOption` that the migrate engine
pattern-matches on (`NotNull`, `Default(_)`, `Generated { .. }`).  All other
options are carried opaquely by `other` so that structural equality of column
definitions is preserved. -/
inductive ColumnOption
  | notNull
  | default (expr : String)
  | generated (generatedAs : GeneratedAs) (sequenceOptions : Option (List String))
      (generationExpr : Option String) (generationExprMode : Option String)
      (generatedKeyword : Bool)
  | other (description : String)
deriving DecidableEq

/-- `sqlparser::ast::ColumnOptionDef`. -/
structure ColumnOptionDef where
  name : Option String
  option : ColumnOption
deriving DecidableEq

/-- `sqlparser::ast::ColumnDef` (the `data_type` is opaque to the engines). -/
structure ColumnDef where
  name : String
  dataType : String
  options : List ColumnOptionDef
deriving DecidableEq

/-- `sqlparser::ast::CreateTable`.  The fields the engines read or write are
explicit; `rest` stands for every remaining field of the Rust struct, which
participates in `==` and is otherwise copied verbatim. -/
structure CreateTable where
  name : ObjectName
  columns : List ColumnDef
  ifNotExists : Bool
  onCluster : Option String
  rest : String := ""
deriving DecidableEq

/-- `sqlparser::ast::CreateIndex` (same `rest` convention as `CreateTable`). -/
structure CreateIndex where
  name : Option ObjectName
  ifNotExists : Bool
  rest : String := ""
deriving DecidableEq

/-- `sqlparser::ast::CreateDomain` (same `rest` convention). -/
structure CreateDomain where
  name : ObjectName
  rest : String := ""
deriving DecidableEq

/-- `sqlparser::ast::DropDomain`. -/
structure DropDomain where
  ifExists : Bool
  name : ObjectName
  dropBehavior : Option String
deriving DecidableEq

/-- `sqlparser::ast::ObjectType` (variants beyond the three the engines test
against are collapsed into `other`). -/
inductive ObjectType
  | table
  | index
  | typ
  | other (description : String)
deriving DecidableEq

/-- `sqlparser::ast::ReferentialAction` (only `Cascade` is ever built). -/
inductive ReferentialAction
  | cascade
  | restrict
deriving DecidableEq

/-- `sqlparser::ast::UserDefinedTypeRepresentation`.  Composite attribute
definitions are opaque to both engines. -/
inductive UserDefinedTypeRepresentation
  | enum (labels : List String)
  | composite (attributes : List String)
deriving DecidableEq

/-- `sqlparser::ast::AlterTypeAddValuePosition`. -/
inductive AlterTypeAddValuePosition
  | before (value : String)
  | after (value : String)
deriving DecidableEq

/-- `sqlparser::ast::AlterTypeAddValue`. -/
structure AlterTypeAddValue where
  ifNotExists : Bool
  value : String
  position : Option AlterTypeAddValuePosition
deriving DecidableEq

/-- `sqlparser::ast::AlterTypeRenameValue` (Rust fields `from` / `to`). -/
structure AlterTypeRenameValue where
  fromVal : String
  toVal : String
deriving DecidableEq

/-- `sqlparser::ast::AlterTypeOperation`. -/
inductive AlterTypeOperation
  | rename (newName : String)
  | addValue (a : AlterTypeAddValue)
  | renameValue (rv : AlterTypeRenameValue)
deriving DecidableEq

/-- `sqlparser::ast::AlterType`. -/
structure AlterType where
  name : ObjectName
  operation : AlterTypeOperation
deriving DecidableEq

/-- `sqlparser::ast::AlterColumnOperation` (exactly the variants
`migrate_alter_table` handles; `using` of `SetDataType` is opaque). -/
inductive AlterColumnOperation
  | setNotNull
  | dropNotNull
  | setDefault (value : String)
  | dropDefault
  | setDataType (dataType : String) (usingExpr : Option String)
  | addGenerated (generatedAs : Option GeneratedAs) (sequenceOptions : Option (List String))
deriving DecidableEq

/-- `sqlparser::ast::AlterTableOperation`.  `AddColumn`, `DropColumn` and
`AlterColumn` are the variants both engines construct or interpret; every
other variant (e.g. `RenameColumn`, `RenameTable`) is collapsed into `other`,
which `migrate_alter_table` rejects with `AlterTableOpNotImplemented`. -/
inductive AlterTableOperation
  | addColumn (columnKeyword : Bool) (ifNotExists : Bool) (columnDef : ColumnDef)
      (columnPosition : Option String)
  | dropColumn (columnName : String) (ifExists : Bool) (dropBehavior : Option String)
      (hasColumnKeyword : Bool)
  | alterColumn (columnName : String) (op : AlterColumnOperation)
  | other (description : String)
deriving DecidableEq

/-- `sqlparser::ast::Statement`, restricted to the variants the two engines
inspect; every other statement kind is collapsed into `other`, which both
engines reject with `NotImplemented`. -/
inductive Statement
  | createTable (t : CreateTable)
  | createIndex (i : CreateIndex)
  | createType (name : ObjectName) (representation : UserDefinedTypeRepresentation)
  | createExtension (name : String) (ifNotExists : Bool) (cascade : Bool) (rest : String)
  | createDomain (d : CreateDomain)
  | alterTable (name : ObjectName) (ifExists : Bool) (only : Bool)
      (operations : List AlterTableOperation) (location : Option String)
      (onCluster : Option String) (iceberg : Bool)
  | alterType (a : AlterType)
  | drop (objectType : ObjectType) (ifExists : Bool) (names : List ObjectName)
      (cascade : Bool) (restrictFlag : Bool) (purge : Bool) (temporary : Bool)
      (table : Option String)
  | dropExtension (names : List String) (ifExists : Bool)
      (cascadeOrRestrict : Option ReferentialAction)
  | dropDomain (dd : DropDomain)
  | other (description : String)
deriving DecidableEq

/-! ## Diff engine (`src/diff.rs`) -/

/-- `DiffErrorKind`. -/
inductive DiffErrorKind
  | dropUnnamedIndex
  | compareUnnamedIndex
  | removeEnumLabel
  | notImplemented
deriving DecidableEq

/-- `DiffError` (builder fields `kind`, `statement_a`, `statement_b`). -/
structure DiffError where
  kind : DiffErrorKind
  statementA : Option Statement
  statementB : Option Statement
deriving DecidableEq

/-- `compare_create_table`: equal tables produce no output; otherwise one
`ALTER TABLE` carrying `DropColumn` ops for columns only in `a` followed by
`AddColumn` ops for columns only in `b`. -/
def compareCreateTable (a b : CreateTable) : Option (List Statement) :=
  if a = b then none
  else
    let ops :=
      (a.columns.filterMap fun ac =>
        if (b.columns.map (·.name)).contains ac.name then none
        else some (AlterTableOperation.dropColumn ac.name a.ifNotExists none true)) ++
      (b.columns.filterMap fun bc =>
        if (a.columns.map (·.name)).contains bc.name then none
        else some (AlterTableOperation.addColumn true a.ifNotExists bc none))
    some [Statement.alterTable a.name a.ifNotExists false ops none a.onCluster false]

/-- `compare_create_index`: equal indexes produce no output; unnamed ones are
a `CompareUnnamedIndex` error; otherwise `DROP INDEX` + `CREATE INDEX b`. -/
def compareCreateIndex (a b : CreateIndex) : Except DiffError (Option (List Statement)) :=
  if a = b then .ok none
  else
    match a.name with
    | none => .error ⟨.compareUnnamedIndex, some (.createIndex a), some (.createIndex b)⟩
    | some name =>
      if b.name = none then
        .error ⟨.compareUnnamedIndex, some (.createIndex a), some (.createIndex b)⟩
      else
        .ok (some [Statement.drop .index a.ifNotExists [name] false false false false none,
                   Statement.createIndex b])

/-- The `Ordering::Less` walk of `compare_create_type`: iterate `b_labels`
maintaining a peekable iterator over `a_labels` (`remaining`) and the last
matched-or-added label (`prev`); `aLabels` is the full original list consulted
by the trailing `contains` test. -/
def enumWalk (aLabels : List String) (prev : Option String) (remaining : List String) :
    List String → List AlterTypeOperation
  | [] => []
  | b :: bs =>
    match remaining with
    | a :: rest =>
      if a = b then enumWalk aLabels (some a) rest bs
      else
        let position := match prev with
          | some p => AlterTypeAddValuePosition.after p
          | none => AlterTypeAddValuePosition.before a
        AlterTypeOperation.addValue ⟨false, b, some position⟩ ::
          enumWalk aLabels (some b) (a :: rest) bs
    | [] =>
      if aLabels.contains b then enumWalk aLabels prev [] bs
      else AlterTypeOperation.addValue ⟨false, b, none⟩ :: enumWalk aLabels prev [] bs

/-- Wrap a list of `ALTER TYPE` operations as statements (empty ⇒ `None`),
the tail of `compare_create_type`. -/
def mkAlterTypeStatements (name : ObjectName) (operations : List AlterTypeOperation) :
    Option (List Statement) :=
  if operations.isEmpty then none
  else some (operations.map fun operation => Statement.alterType ⟨name, operation⟩)

/-- `compare_create_type`. -/
def compareCreateType (a : Statement) (aName : ObjectName)
    (aRep : UserDefinedTypeRepresentation) (b : Statement) (bName : ObjectName)
    (bRep : UserDefinedTypeRepresentation) : Except DiffError (Option (List Statement)) :=
  if aName = bName ∧ aRep = bRep then .ok none
  else
    match aRep, bRep with
    | .enum aLabels, .enum bLabels =>
      if aLabels.length = bLabels.length then
        let operations := (aLabels.zip bLabels).filterMap fun p =>
          if p.1 = p.2 then none
          else some (AlterTypeOperation.renameValue ⟨p.1, p.2⟩)
        .ok (mkAlterTypeStatements aName operations)
      else if aLabels.length < bLabels.length then
        .ok (mkAlterTypeStatements aName (enumWalk aLabels none aLabels bLabels))
      else .error ⟨.removeEnumLabel, some a, some b⟩
    | _, _ => .error ⟨.notImplemented, some a, some b⟩

/-- `compare_create_domain`: equal domains produce no output, otherwise
`DROP DOMAIN IF EXISTS a` + `CREATE DOMAIN b`. -/
def compareCreateDomain (a b : CreateDomain) : Option (List Statement) :=
  if a = b then none
  else some [Statement.dropDomain ⟨true, a.name, none⟩, Statement.createDomain b]

/-- `impl Diff for Statement`. -/
def Statement.diff (self other : Statement) : Except DiffError (Option (List Statement)) :=
  match self with
  | .createTable a =>
    match other with
    | .createTable b => .ok (compareCreateTable a b)
    | _ => .ok none
  | .createIndex a =>
    match other with
    | .createIndex b => compareCreateIndex a b
    | _ => .ok none
  | .createType aName aRep =>
    match other with
    | .createType bName bRep => compareCreateType self aName aRep other bName bRep
    | _ => .ok none
  | .createDomain a =>
    match other with
    | .createDomain b => .ok (compareCreateDomain a b)
    | _ => .ok none
  | _ => .error ⟨.notImplemented, some self, some other⟩

/-- `find_and_compare`: look `sa`'s counterpart up in `other`; fall back to
`drop_fn` when absent, diff the two statements when present. -/
def findAndCompare (sa : Statement) (other : List Statement) (matchFn : Statement → Bool)
    (dropFn : Unit → Except DiffError (Option (List Statement))) :
    Except DiffError (Option (List Statement)) :=
  match other.find? matchFn with
  | none => dropFn ()
  | some sb => Statement.diff sa sb

/-- `find_and_compare_create_table`. -/
def findAndCompareCreateTable (sa : Statement) (a : CreateTable) (other : List Statement) :
    Except DiffError (Option (List Statement)) :=
  findAndCompare sa other
    (fun sb => match sb with
      | .createTable b => a.name == b.name
      | _ => false)
    (fun _ => .ok (some [Statement.drop .table a.ifNotExists [a.name]
        false false false false none]))

/-- `find_and_compare_create_index`. -/
def findAndCompareCreateIndex (sa : Statement) (a : CreateIndex) (other : List Statement) :
    Except DiffError (Option (List Statement)) :=
  findAndCompare sa other
    (fun sb => match sb with
      | .createIndex b => a.name == b.name
      | _ => false)
    (fun _ =>
      match a.name with
      | none => .error ⟨.dropUnnamedIndex, some sa, none⟩
      | some name => .ok (some [Statement.drop .index a.ifNotExists [name]
          false false false false none]))

/-- `find_and_compare_create_type`. -/
def findAndCompareCreateType (sa : Statement) (aName : ObjectName) (other : List Statement) :
    Except DiffError (Option (List Statement)) :=
  findAndCompare sa other
    (fun sb => match sb with
      | .createType bName _ => aName == bName
      | _ => false)
    (fun _ => .ok (some [Statement.drop .typ false [aName] false false false false none]))

/-- `find_and_compare_create_extension`. -/
def findAndCompareCreateExtension (sa : Statement) (aName : String) (ifNotExists : Bool)
    (cascade : Bool) (other : List Statement) : Except DiffError (Option (List Statement)) :=
  findAndCompare sa other
    (fun sb => match sb with
      | .createExtension bName _ _ _ => aName == bName
      | _ => false)
    (fun _ => .ok (some [Statement.dropExtension [aName] ifNotExists
        (if cascade then some .cascade else none)]))

/-- `find_and_compare_create_domain`.  NOTE: unlike the other four kinds this
helper emits nothing when the domain is absent from `other` (the `find` result
is only `map`ped over, there is no drop fallback). -/
def findAndCompareCreateDomain (orig : Statement) (domain : CreateDomain)
    (other : List Statement) : Except DiffError (Option (List Statement)) :=
  match other.find? (fun sb => match sb with
      | .createDomain b => b.name == domain.name
      | _ => false) with
  | none => .ok none
  | some sb => Statement.diff orig sb

/-- One step of the first pass of `impl Diff for Vec<Statement>`: dispatch of
statement `sa` of `self` against the list `other`. -/
def diffOne (other : List Statement) (sa : Statement) :
    Except DiffError (Option (List Statement)) :=
  match sa with
  | .createTable a => findAndCompareCreateTable sa a other
  | .createIndex a => findAndCompareCreateIndex sa a other
  | .createType name _ => findAndCompareCreateType sa name other
  | .createExtension name ifNotExists cascade _ =>
    findAndCompareCreateExtension sa name ifNotExists cascade other
  | .createDomain a => findAndCompareCreateDomain sa a other
  | _ => .error ⟨.notImplemented, some sa, none⟩

/-- One step of the second pass of `impl Diff for Vec<Statement>`: a `Create*`
statement of `other` is emitted verbatim iff `self` holds no statement of the
same kind and name.  The inner match mirrors the Rust
`Result<Option<&Statement>, DiffError>` (the `_` arm builds a
`NotImplemented` error); the outer match mirrors the
`.transpose().map_or_else(|| Some(Ok(vec![sb.clone()])), |_| None)` chain,
which maps every `Some` — the found-a-match case *and* the error case alike —
to `None`: the built error is discarded, so non-`Create*` statements of
`other` are silently skipped and this pass never yields an error. -/
def createdInOther (self : List Statement) (sb : Statement) :
    Except DiffError (Option (List Statement)) :=
  let found : Except DiffError (Option Statement) :=
    match sb with
    | .createTable b =>
      .ok (self.find? fun sa => match sa with
        | .createTable a => a.name == b.name
        | _ => false)
    | .createIndex b =>
      .ok (self.find? fun sa => match sa with
        | .createIndex a => a.name == b.name
        | _ => false)
    | .createType bName _ =>
      .ok (self.find? fun sa => match sa with
        | .createType aName _ => aName == bName
        | _ => false)
    | .createExtension bName _ _ _ =>
      .ok (self.find? fun sa => match sa with
        | .createExtension aName _ _ _ => aName == bName
        | _ => false)
    | .createDomain b =>
      .ok (self.find? fun sa => match sa with
        | .createDomain a => a.name == b.name
        | _ => false)
    | _ => .error ⟨.notImplemented, some sb, none⟩
  match found with
  | .ok none => .ok (some [sb])
  | .ok (some _) => .ok none
  | .error _ => .ok none

/-- `collect::<Result<Vec<_>, _>>()` over a `filter_map`ped iterator of
per-statement diff results: the first error aborts, `None` contributes
nothing, `Some(ops)` contributes `ops` in order. -/
def collectDiffs (f : Statement → Except DiffError (Option (List Statement))) :
    List Statement → Except DiffError (List Statement)
  | [] => .ok []
  | x :: xs =>
    match f x with
    | .error e => .error e
    | .ok o =>
      match collectDiffs f xs with
      | .error e => .error e
      | .ok rest => .ok (o.getD [] ++ rest)

/-- `impl Diff for Vec<Statement>`: first pass over `self` (drops and
per-statement diffs), then the pass over `other` (verbatim creates); an empty
result collapses to `None`. -/
def diff (self other : List Statement) : Except DiffError (Option (List Statement)) :=
  match collectDiffs (diffOne other) self with
  | .error e => .error e
  | .ok part1 =>
    match collectDiffs (createdInOther self) other with
    | .error e => .error e
    | .ok part2 =>
      let res := part1 ++ part2
      if res.isEmpty then .ok none else .ok (some res)

/-! ## Migrate engine (`src/migration.rs`) -/

/-- `MigrateErrorKind`. -/
inductive MigrateErrorKind
  | unnamedIndex
  | alterTableOpNotImplemented (op : AlterTableOperation)
  | alterTypeInvalidOp (op : AlterTypeOperation)
  | notImplemented
deriving DecidableEq

/-- `MigrateError` (builder fields `kind`, `statement_a`, `statement_b`). -/
structure MigrateError where
  kind : MigrateErrorKind
  statementA : Option Statement
  statementB : Option Statement
deriving DecidableEq

/-- The closure body of `AlterColumn` handling inside `migrate_alter_table`:
mutate column `c` when its name matches, else leave it untouched. -/
def applyAlterColumn (columnName : String) (op : AlterColumnOperation) (c : ColumnDef) :
    ColumnDef :=
  if c.name ≠ columnName then c
  else
    match op with
    | .setNotNull => { c with options := c.options ++ [⟨none, .notNull⟩] }
    | .dropNotNull =>
      { c with options := c.options.filter fun o =>
          match o.option with
          | .notNull => false
          | _ => true }
    | .setDefault value =>
      { c with options :=
          (c.options.filter fun o =>
            match o.option with
            | .default _ => false
            | _ => true) ++ [⟨none, .default value⟩] }
    | .dropDefault =>
      { c with options := c.options.filter fun o =>
          match o.option with
          | .default _ => false
          | _ => true }
    | .setDataType dataType _ => { c with dataType := dataType }
    | .addGenerated generatedAs sequenceOptions =>
      { c with options :=
          (c.options.filter fun o =>
            match o.option with
            | .generated _ _ _ _ _ => false
            | _ => true) ++
          [⟨none, .generated (generatedAs.getD .always) sequenceOptions none none true⟩] }

/-- `migrate_alter_table`: fold the `ALTER TABLE` operations over the table in
order; unsupported operations raise `AlterTableOpNotImplemented`. -/
def migrateAlterTable (t : CreateTable) : List AlterTableOperation →
    Except MigrateError CreateTable
  | [] => .ok t
  | op :: rest =>
    match op with
    | .addColumn _ _ columnDef _ =>
      migrateAlterTable { t with columns := t.columns ++ [columnDef] } rest
    | .dropColumn columnName _ _ _ =>
      migrateAlterTable { t with columns := t.columns.filter fun c => c.name ≠ columnName } rest
    | .alterColumn columnName op =>
      migrateAlterTable { t with columns := t.columns.map (applyAlterColumn columnName op) } rest
    | .other description =>
      .error ⟨.alterTableOpNotImplemented (.other description), some (.createTable t), none⟩

/-- `Vec::insert(index, value)` (the index is always `≤ length` at call
sites). -/
def insertAt (n : Nat) (a : α) (l : List α) : List α :=
  l.take n ++ a :: l.drop n

/-- `migrate_alter_type`. -/
def migrateAlterType (name : ObjectName) (representation : UserDefinedTypeRepresentation)
    (other : AlterType) :
    Except MigrateError (ObjectName × UserDefinedTypeRepresentation) :=
  match other.operation with
  | .rename r =>
    .ok (name.dropLast ++ [r], representation)
  | .addValue a =>
    match representation with
    | .enum labels =>
      let labels := match a.position with
        | some (.before beforeName) =>
          insertAt ((labels.findIdx? (fun l => l = beforeName)).getD 0) a.value labels
        | some (.after afterName) =>
          match labels.findIdx? (fun l => l = afterName) with
          | some i => insertAt (i + 1) a.value labels
          | none => labels ++ [a.value]
        | none => labels ++ [a.value]
      .ok (name, .enum labels)
    | .composite attrs =>
      .error ⟨.alterTypeInvalidOp other.operation,
        some (.createType name (.composite attrs)), some (.alterType other)⟩
  | .renameValue rv =>
    match representation with
    | .enum labels =>
      .ok (name, .enum (labels.map fun l => if l = rv.fromVal then rv.toVal else l))
    | .composite attrs =>
      .error ⟨.alterTypeInvalidOp other.operation,
        some (.createType name (.composite attrs)), some (.alterType other)⟩

/-- `impl Migrate for Statement`. -/
def Statement.migrate (self other : Statement) : Except MigrateError (Option Statement) :=
  match self with
  | .createTable ca =>
    match other with
    | .alterTable name _ _ operations _ _ _ =>
      if name = ca.name then
        match migrateAlterTable ca operations with
        | .error e => .error e
        | .ok t => .ok (some (.createTable t))
      else .ok (some (.createTable ca))
    | .drop objectType _ names _ _ _ _ _ =>
      if objectType = .table ∧ names.contains ca.name then .ok none
      else .ok (some (.createTable ca))
    | _ => .error ⟨.notImplemented, some (.createTable ca), some other⟩
  | .createIndex a =>
    match other with
    | .drop objectType _ names _ _ _ _ _ =>
      match a.name with
      | none => .error ⟨.unnamedIndex, some (.createIndex a), some other⟩
      | some name =>
        if objectType = .index ∧ names.contains name then .ok none
        else .ok (some (.createIndex a))
    | _ => .error ⟨.notImplemented, some (.createIndex a), some other⟩
  | .createType name representation =>
    match other with
    | .alterType ba =>
      if name = ba.name then
        match migrateAlterType name representation ba with
        | .error e => .error e
        | .ok (name, representation) => .ok (some (.createType name representation))
      else .ok (some (.createType name representation))
    | .drop objectType _ names _ _ _ _ _ =>
      if objectType = .typ ∧ names.contains name then .ok none
      else .ok (some (.createType name representation))
    | _ => .error ⟨.notImplemented, some (.createType name representation), some other⟩
  | _ => .error ⟨.notImplemented, some self, some other⟩

/-- The per-kind `find` closures of `impl Migrate for Vec<Statement>`: does
migration statement `sb` target schema statement `sa` (by kind and name)? -/
def targets : Statement → Statement → Bool
  | .createTable ca, sb =>
    match sb with
    | .alterTable name _ _ _ _ _ _ => name == ca.name
    | .drop objectType _ names _ _ _ _ _ =>
      objectType == .table &&
        (match names with
         | [n] => n == ca.name
         | _ => false)
    | _ => false
  | .createIndex a, sb =>
    match sb with
    | .drop objectType _ names _ _ _ _ _ =>
      objectType == .index &&
        (match names with
         | [n] => some n == a.name
         | _ => false)
    | _ => false
  | .createType name _, sb =>
    match sb with
    | .alterType b => name == b.name
    | .drop objectType _ names _ _ _ _ _ =>
      objectType == .typ &&
        (match names with
         | [n] => n == name
         | _ => false)
    | _ => false
  | .createExtension name _ _ _, sb =>
    match sb with
    | .dropExtension names _ _ => names.contains name
    | _ => false
  | .createDomain a, sb =>
    match sb with
    | .dropDomain b => a.name == b.name
    | _ => false
  | _, _ => false

/-- The rewrite pass of `impl Migrate for Vec<Statement>` for a single schema
statement: apply the first statement of `other` targeting it (if any);
non-`Create*` schema statements are `NotImplemented`. -/
def rewriteOne (sa : Statement) (other : List Statement) :
    Except MigrateError (Option Statement) :=
  match sa with
  | .createTable _ | .createIndex _ | .createType _ _ | .createExtension _ _ _ _
  | .createDomain _ =>
    match other.find? (targets sa) with
    | none => .ok (some sa)
    | some sb => Statement.migrate sa sb
  | _ => .error ⟨.notImplemented, some sa, none⟩

/-- The append-pass predicate of `impl Migrate for Vec<Statement>`: the five
`Create*` statement kinds. -/
def isCreate : Statement → Bool
  | .createTable _ | .createIndex _ | .createType _ _ | .createExtension _ _ _ _
  | .createDomain _ => true
  | _ => false

/-- `collect::<Result<Self, _>>()` over the rewrite pass: the first error
aborts, an eliminated statement (`None`) contributes nothing. -/
def collectRewrites (other : List Statement) : List Statement →
    Except MigrateError (List Statement)
  | [] => .ok []
  | sa :: rest =>
    match rewriteOne sa other with
    | .error e => .error e
    | .ok o =>
      match collectRewrites other rest with
      | .error e => .error e
      | .ok tail => .ok (o.toList ++ tail)

/-- `impl Migrate for Vec<Statement>`: the rewrite pass over `self` chained
with the verbatim appends of every `Create*` statement of `other`; the result
is always `Ok(Some(..))`. -/
def migrate (self other : List Statement) : Except MigrateError (Option (List Statement)) :=
  match collectRewrites other self with
  | .error e => .error e
  | .ok rewritten => .ok (some (rewritten ++ other.filter isCreate))

/-! ## Path templates (`src/path_template.rs`) -/

/-- `ast::UpDown`. -/
inductive UpDown
  | up
  | down
deriving DecidableEq

/-- `ast::DoUndo`. -/
inductive DoUndo
  | do'
  | undo
deriving DecidableEq

/-- `ast::PaddedNumber`. -/
structure PaddedNumber where
  width : Nat
  number : Nat
deriving DecidableEq

/-- `ast::Semver` (three components with their parsed digit widths). -/
structure Semver where
  major : Nat
  minor : Nat
  patch : Nat
  widths : Nat × Nat × Nat
deriving DecidableEq

/-- `Semver::increment_minor`. -/
def Semver.incrementMinor (s : Semver) : Semver :=
  { s with minor := s.minor + 1, patch := 0 }

/-- `ast::SubSecond`. -/
inductive SubSecond
  | milli (n : Nat)
  | micro (n : Nat)
  | nano (n : Nat)
deriving DecidableEq

/-- `ast::Date` (parsed digits plus the literal separators that followed the
year and month). -/
structure Date where
  year : Int
  yearSep : Option String
  month : Nat
  monthSep : Option String
  day : Nat
deriving DecidableEq

/-- `ast::Time`. -/
structure Time where
  hour : Nat
  hourSep : Option String
  minute : Nat
  minuteSep : Option String
  second : Option Nat
  secondSep : Option String
  subsecond : Option SubSecond
deriving DecidableEq

/-- `ast::DateTime`. -/
structure DateTime where
  date : Date
  dateSep : Option String
  time : Option Time
deriving DecidableEq

/-- `ast::EpochTimestamp`. -/
inductive EpochTimestamp
  | second (i : Int)
  | milli (i : Int)
  | micro (i : Int)
  | nano (i : Int)
deriving DecidableEq

/-- `ast::Timestamp`. -/
inductive Timestamp
  | epoch (e : EpochTimestamp)
  | dateTime (d : DateTime)
deriving DecidableEq

/-- `ast::Token` (`pfx` is `Token::Prefix`). -/
inductive Token
  | pfx (s : String)
  | paddedNumber (p : PaddedNumber)
  | randomNumber (n : Nat)
  | semver (v : Semver)
  | timestamp (ts : Timestamp)
  | name (s : String)
  | upDown (u : UpDown)
  | doUndo (d : DoUndo)
  | underscore
  | dot
  | dash
  | extension
deriving DecidableEq

/-- `ast::SegmentKind`. -/
inductive SegmentKind
  | dir
  | file
deriving DecidableEq

/-- `ast::Segment`. -/
structure Segment where
  kind : SegmentKind
  tokens : List Token
deriving DecidableEq

/-- `ast::PathTemplate`. -/
structure PathTemplate where
  segments : List Segment
deriving DecidableEq

/-- A `chrono::DateTime<Utc>` instant as the resolver observes it: the stored
fields mirror the outputs of the `Datelike`/`Timelike` accessors and of
`timestamp()` / `timestamp_subsec_nanos()` on the same instant. -/
structure UtcDateTime where
  year : Int
  month : Nat
  day : Nat
  hour : Nat
  minute : Nat
  second : Nat
  epochSecs : Int
  subsecNanos : Nat
deriving DecidableEq

/-- `chrono::DateTime::timestamp`. -/
def UtcDateTime.timestamp (t : UtcDateTime) : Int := t.epochSecs

/-- `chrono::DateTime::timestamp_millis`. -/
def UtcDateTime.timestampMillis (t : UtcDateTime) : Int :=
  t.epochSecs * 1000 + (t.subsecNanos / 1000000 : Nat)

/-- `chrono::DateTime::timestamp_micros`. -/
def UtcDateTime.timestampMicros (t : UtcDateTime) : Int :=
  t.epochSecs * 1000000 + (t.subsecNanos / 1000 : Nat)

/-- `chrono::DateTime::timestamp_nanos_opt` (`None` once the value leaves the
`i64` range). -/
def UtcDateTime.timestampNanosOpt (t : UtcDateTime) : Option Int :=
  let n := t.epochSecs * 1000000000 + (t.subsecNanos : Int)
  if -(2 ^ 63) ≤ n ∧ n < 2 ^ 63 then some n else none

/-- `chrono::DateTime::timestamp_subsec_millis`. -/
def UtcDateTime.timestampSubsecMillis (t : UtcDateTime) : Nat := t.subsecNanos / 1000000

/-- `chrono::DateTime::timestamp_subsec_micros`. -/
def UtcDateTime.timestampSubsecMicros (t : UtcDateTime) : Nat := t.subsecNanos / 1000

/-- `chrono::DateTime::timestamp_subsec_nanos`. -/
def UtcDateTime.timestampSubsecNanos (t : UtcDateTime) : Nat := t.subsecNanos

/-- `ast::TemplateData`. -/
structure TemplateData where
  timestamp : UtcDateTime
  name : String
  upDown : Option UpDown
  counter : Option Nat
  random : Option Nat
  semver : Option Semver
deriving DecidableEq

/-- Rust `format!("{:0>w$}", x)`: right-align and fill with `'0'` up to width
`w`. -/
def padLeftZeros (w : Nat) (s : String) : String :=
  if s.length ≥ w then s else String.mk (List.replicate (w - s.length) '0') ++ s

/-- Rust `format!("{:0w$}", s)` on a *string* argument: strings left-align, so
the `'0'` fill is appended on the right. -/
def padRightZeros (w : Nat) (s : String) : String :=
  if s.length ≥ w then s else s ++ String.mk (List.replicate (w - s.length) '0')

/-- `impl Resolve for PaddedNumber`. -/
def PaddedNumber.resolve (p : PaddedNumber) (data : TemplateData) : String :=
  padLeftZeros p.width (toString (data.counter.getD (p.number + 1)))

/-- `impl Resolve for Semver`. -/
def Semver.resolve (v : Semver) (data : TemplateData) : String :=
  let num := data.semver.getD v.incrementMinor
  padLeftZeros num.widths.1 (toString num.major) ++ "." ++
    padLeftZeros num.widths.2.1 (toString num.minor) ++ "." ++
    padLeftZeros num.widths.2.2 (toString num.patch)

/-- `impl Resolve for EpochTimestamp`. -/
def EpochTimestamp.resolve (e : EpochTimestamp) (data : TemplateData) : String :=
  let ts := data.timestamp
  toString (match e with
    | .second _ => ts.timestamp
    | .milli _ => ts.timestampMillis
    | .micro _ => ts.timestampMicros
    | .nano _ => (ts.timestampNanosOpt).getD 0)

/-- `impl Resolve for Date` (`format!("{:02}{}{:02}{}{:02}", ..)`). -/
def Date.resolve (d : Date) (data : TemplateData) : String :=
  let ts := data.timestamp
  padLeftZeros 2 (toString ts.year) ++ (d.yearSep.getD "") ++
    padLeftZeros 2 (toString ts.month) ++ (d.monthSep.getD "") ++
    padLeftZeros 2 (toString ts.day)

/-- `impl Resolve for SubSecond`. -/
def SubSecond.resolve (s : SubSecond) (data : TemplateData) : String :=
  let ts := data.timestamp
  match s with
  | .milli _ => toString ts.timestampSubsecMillis
  | .micro _ => toString ts.timestampSubsecMicros
  | .nano _ => toString ts.timestampSubsecNanos

/-- `impl Resolve for Time`. -/
def Time.resolve (t : Time) (data : TemplateData) : String :=
  let ts := data.timestamp
  padLeftZeros 2 (toString ts.hour) ++ (t.hourSep.getD "") ++
    padLeftZeros 2 (toString ts.minute) ++ (t.minuteSep.getD "") ++
    padRightZeros 2 ((t.second.map fun _ => padLeftZeros 2 (toString ts.second)).getD "") ++
    (t.secondSep.getD "") ++
    ((t.subsecond.map fun sss => sss.resolve data).getD "")

/-- `impl Resolve for DateTime`. -/
def DateTime.resolve (dt : DateTime) (data : TemplateData) : String :=
  dt.date.resolve data ++ (dt.dateSep.getD "") ++
    ((dt.time.map fun t => t.resolve data).getD "")

/-- `impl Resolve for Timestamp`. -/
def Timestamp.resolve (ts : Timestamp) (data : TemplateData) : String :=
  match ts with
  | .epoch e => e.resolve data
  | .dateTime d => d.resolve data

/-- `impl Resolve for UpDown` (driven by `data.up_down`, not by the parsed
variant). -/
def UpDown.resolve (_ : UpDown) (data : TemplateData) : String :=
  match data.upDown with
  | some .up => "up"
  | some .down => "down"
  | none => ""

/-- `impl Resolve for DoUndo`. -/
def DoUndo.resolve (_ : DoUndo) (data : TemplateData) : String :=
  match data.upDown with
  | some .up => "do"
  | some .down => "undo"
  | none => ""

/-- `impl Resolve for Token`. -/
def Token.resolve (t : Token) (data : TemplateData) : String :=
  match t with
  | .pfx s => s
  | .paddedNumber p => p.resolve data
  | .randomNumber _ =>
    match data.random with
    | some num => toString num
    | none => toString data.timestamp.timestampMicros
  | .semver v => v.resolve data
  | .timestamp ts => ts.resolve data
  | .name _ => data.name
  | .upDown u => u.resolve data
  | .doUndo d => d.resolve data
  | .underscore => "_"
  | .dot => "."
  | .dash => "-"
  | .extension => ".sql"

/-- `matches!(t, Token::Dot)`. -/
def isDotTok : Token → Bool
  | .dot => true
  | _ => false

/-- `matches!(next, Some(Token::UpDown(_)))` — note this is *not* satisfied by
a `DoUndo` token. -/
def headIsUpDownTok : Option Token → Bool
  | some (.upDown _) => true
  | _ => false

/-- The body of `impl Resolve for Segment`: render each token, consulting the
following token — when `data.up_down` is unset, a `Dot` immediately followed
by an `UpDown` token is suppressed. -/
def resolveTokens (data : TemplateData) : List Token → String
  | [] => ""
  | t :: rest =>
    (if data.upDown.isNone && isDotTok t && headIsUpDownTok rest.head? then ""
     else t.resolve data) ++ resolveTokens data rest

/-- `impl Resolve for Segment`. -/
def Segment.resolve (s : Segment) (data : TemplateData) : String :=
  resolveTokens data s.tokens

/-- `impl Resolve for PathTemplate`. -/
def PathTemplate.resolve (t : PathTemplate) (data : TemplateData) : String :=
  String.join (t.segments.map fun s => s.resolve data)

/-- In-place update of the last element of a list (`last_mut`). -/
def modifyLast (f : α → α) : List α → List α
  | [] => []
  | [x] => [f x]
  | x :: y :: xs => x :: modifyLast f (y :: xs)

/-- `matches!(tokens.last(), Some(Token::UpDown(_)) | Some(Token::DoUndo(_)))`. -/
def isUpDownTok : Option Token → Bool
  | some (.upDown _) => true
  | some (.doUndo _) => true
  | _ => false

/-- The body of `PathTemplate::with_up_down` on the final segment: pop the
extension (default `Extension` when the segment is empty), insert
`Dot, UpDown(Up)` unless the now-last token is already `UpDown`/`DoUndo`,
push the extension back. -/
def withUpDownSegment (s : Segment) : Segment :=
  let ext := (s.tokens.getLast?).getD Token.extension
  let init := s.tokens.dropLast
  if isUpDownTok init.getLast? then { s with tokens := init ++ [ext] }
  else { s with tokens := init ++ [Token.dot, Token.upDown .up, ext] }

/-- `PathTemplate::with_up_down`. -/
def PathTemplate.withUpDown (t : PathTemplate) : PathTemplate :=
  ⟨modifyLast withUpDownSegment t.segments⟩

/-! ## Epoch-timestamp acceptance (`parser::epoch_*` of `src/path_template.rs`)

The parser feeds the maximal digit run (as an `i64`, failing on overflow) to
`chrono::DateTime::from_timestamp{,_millis,_micros,_nanos}` and then to
`validate_datetime`, which keeps the instant iff its calendar date `d`
satisfies `MIN_DATE ≤ d ∧ d ≤ MAX_DATE` with `MIN_DATE = 2000-01-01` and
`MAX_DATE = 2100-01-01`.  For a non-negative value `n` in unit `u` the
calendar date of the instant is day `n / (86400·u)` counted from 1970-01-01
(day 10957 is 2000-01-01, day 47482 is 2100-01-01).  `chrono` returns `None`
from the `from_timestamp*` constructors only for instants some 260 000 years
away from 1970, all of which fail the date check anyway, so acceptance is
unaffected by modelling those constructors as total on the accepted range. -/

/-- `i64::MAX`; `parse_to::<i64>` fails beyond it, making every alternative of
`epoch_timestamp` fail. -/
def i64Max : Nat := 9223372036854775807

/-- Days from 1970-01-01 to `MIN_DATE` (2000-01-01). -/
def minDateDays : Nat := 10957

/-- Days from 1970-01-01 to `MAX_DATE` (2100-01-01). -/
def maxDateDays : Nat := 47482

/-- `validate_datetime`, expressed on the day number of the instant's calendar
date: `MIN_DATE ≤ d` and `d ≤ MAX_DATE` (both comparisons inclusive). -/
def validateDatetimeDays (d : Nat) : Bool :=
  minDateDays ≤ d && d ≤ maxDateDays

/-- `epoch_seconds` succeeds on digit-run value `n`. -/
def epochSecondsOk (n : Nat) : Bool :=
  n ≤ i64Max && validateDatetimeDays (n / 86400)

/-- `epoch_millis` succeeds on digit-run value `n`. -/
def epochMillisOk (n : Nat) : Bool :=
  n ≤ i64Max && validateDatetimeDays (n / 86400000)

/-- `epoch_micros` succeeds on digit-run value `n`. -/
def epochMicrosOk (n : Nat) : Bool :=
  n ≤ i64Max && validateDatetimeDays (n / 86400000000)

/-- `epoch_nanos` succeeds on digit-run value `n`. -/
def epochNanosOk (n : Nat) : Bool :=
  n ≤ i64Max && validateDatetimeDays (n / 86400000000000)

/-- `epoch_timestamp`: `alt((epoch_nanos, epoch_micros, epoch_millis,
epoch_seconds))` — the digit run is accepted iff some alternative accepts
it. -/
def epochTimestampAccepts (n : Nat) : Bool :=
  epochNanosOk n || epochMicrosOk n || epochMillisOk n || epochSecondsOk n

/-- Modelled from the spec's words for claim C7: the digit run is accepted iff
some interpretation (nanoseconds, microseconds, milliseconds, seconds) yields
a UTC instant in the *half-open* interval `[2000-01-01, 2100-01-01)`, i.e.
`minDateDays·86400·u ≤ n < maxDateDays·86400·u`. -/
def specEpochAcceptsHalfOpen (n : Nat) : Bool :=
  let inRange (u : Nat) : Bool :=
    minDateDays * (86400 * u) ≤ n && n < maxDateDays * (86400 * u)
  inRange 1000000000 || inRange 1000000 || inRange 1000 || inRange 1

/-- The amended spec-side characterisation: some interpretation yields a UTC
instant whose calendar date lies in the *closed* interval
`[2000-01-01, 2100-01-01]`, i.e. `minDateDays·86400·u ≤ n <
(maxDateDays+1)·86400·u`. -/
def specEpochAcceptsClosed (n : Nat) : Bool :=
  let inRange (u : Nat) : Bool :=
    minDateDays * (86400 * u) ≤ n && n < (maxDateDays + 1) * (86400 * u)
  inRange 1000000000 || inRange 1000000 || inRange 1000 || inRange 1

deriving instance DecidableEq for Except

/-! ## Auxiliary notions used by the theorems -/

/-- The (kind, name) identity key of a supported `Create*` statement, the
object identity both engines match on. -/
inductive Key
  | table (n : ObjectName)
  | index (n : Option ObjectName)
  | typ (n : ObjectName)
  | ext (n : String)
  | domain (n : ObjectName)
deriving DecidableEq

/-- `keyOf s` is the identity key of `s` (`none` for non-`Create*`
statements). -/
def keyOf : Statement → Option Key
  | .createTable a => some (.table a.name)
  | .createIndex a => some (.index a.name)
  | .createType n _ => some (.typ n)
  | .createExtension n _ _ _ => some (.ext n)
  | .createDomain a => some (.domain a.name)
  | _ => none

/-- Statement kinds whose self-diff goes through `Statement::diff` without an
error: the four `Create*` kinds that `impl Diff for Statement` handles
(`CreateExtension` is *not* among them). -/
def selfComparable : Statement → Bool
  | .createTable _ | .createIndex _ | .createType _ _ | .createDomain _ => true
  | _ => false

/-- The `Drop` statement the diff engine's first pass emits for an unmatched
statement, by kind (`none` for unnamed indexes, domains and non-`Create*`
statements, which have no drop fallback). -/
def dropFor : Statement → Option Statement
  | .createTable a =>
    some (.drop .table a.ifNotExists [a.name] false false false false none)
  | .createIndex a =>
    a.name.map fun n => .drop .index a.ifNotExists [n] false false false false none
  | .createType n _ => some (.drop .typ false [n] false false false false none)
  | .createExtension n ifNotExists cascade _ =>
    some (.dropExtension [n] ifNotExists (if cascade then some .cascade else none))
  | _ => none

/-! ## Helper lemmas -/

theorem boolEqOfIff {a b : Bool} (h : a = true ↔ b = true) : a = b := by
  cases a <;> cases b <;> simp_all

theorem modifyLast_concat (f : α → α) :
    ∀ (l : List α) (x : α), modifyLast f (l ++ [x]) = l ++ [f x]
  | [], _ => rfl
  | [_], _ => rfl
  | y :: z :: zs, x => by
    have ih := modifyLast_concat f (z :: zs) x
    calc modifyLast f ((y :: z :: zs) ++ [x])
        = y :: modifyLast f ((z :: zs) ++ [x]) := rfl
      _ = y :: ((z :: zs) ++ [f x]) := by rw [ih]
      _ = (y :: z :: zs) ++ [f x] := rfl

theorem collectDiffs_ok_none (f : Statement → Except DiffError (Option (List Statement))) :
    ∀ {l : List Statement}, (∀ x ∈ l, f x = .ok none) → collectDiffs f l = .ok []
  | [], _ => rfl
  | x :: xs, h => by
    have hx := h x (List.mem_cons_self x xs)
    have ih := collectDiffs_ok_none f (fun y hy => h y (List.mem_cons_of_mem x hy))
    simp [collectDiffs, hx, ih]

theorem collectDiffs_map {β} (f : Statement → Except DiffError (Option (List Statement)))
    (m : β → Statement) (g : β → Option (List Statement)) :
    ∀ (l : List β), (∀ x ∈ l, f (m x) = .ok (g x)) →
      collectDiffs f (l.map m) = .ok (l.flatMap fun x => (g x).getD [])
  | [], _ => rfl
  | x :: xs, h => by
    have hx := h x (List.mem_cons_self x xs)
    have ih := collectDiffs_map f m g xs (fun y hy => h y (List.mem_cons_of_mem x hy))
    simp [collectDiffs, hx, ih]

theorem collectDiffs_mem {f : Statement → Except DiffError (Option (List Statement))} :
    ∀ {l res : List Statement}, collectDiffs f l = .ok res →
      ∀ {x}, x ∈ l → ∀ {o}, f x = .ok o → ∀ {y}, y ∈ o.getD [] → y ∈ res := by
  intro l
  induction l with
  | nil => intro res _ x hx; cases hx
  | cons z zs ih =>
    intro res hres x hx o ho y hy
    rcases hfz : f z with e | oz
    · simp [collectDiffs, hfz] at hres
    · rcases hrest : collectDiffs f zs with e | rest
      · simp [collectDiffs, hfz, hrest] at hres
      · simp only [collectDiffs, hfz, hrest] at hres
        injection hres with hres
        subst hres
        rcases List.mem_cons.mp hx with rfl | hmem
        · rw [ho] at hfz; injection hfz with hfz; subst hfz
          exact List.mem_append_left _ hy
        · exact List.mem_append_right _ (ih hrest hmem ho hy)

theorem collectRewrites_map {β} (other : List Statement) (m : β → Statement)
    (g : β → Option Statement) :
    ∀ (l : List β), (∀ x ∈ l, rewriteOne (m x) other = .ok (g x)) →
      collectRewrites other (l.map m) = .ok (l.flatMap fun x => (g x).toList)
  | [], _ => rfl
  | x :: xs, h => by
    have hx := h x (List.mem_cons_self x xs)
    have ih := collectRewrites_map other m g xs (fun y hy => h y (List.mem_cons_of_mem x hy))
    simp [collectRewrites, hx, ih]

theorem collectRewrites_ok_self (other : List Statement) :
    ∀ {l : List Statement}, (∀ x ∈ l, rewriteOne x other = .ok (some x)) →
      collectRewrites other l = .ok l
  | [], _ => rfl
  | x :: xs, h => by
    have hx := h x (List.mem_cons_self x xs)
    have ih := collectRewrites_ok_self other (fun y hy => h y (List.mem_cons_of_mem x hy))
    simp [collectRewrites, hx, ih]

theorem flatMap_ite_nil {β} (p : β → Bool) (g : β → Statement) :
    ∀ l : List β,
      (l.flatMap fun x => ((if p x then none else some [g x] : Option (List Statement))).getD [])
        = ((l.filter fun x => !p x).map g)
  | [] => rfl
  | x :: xs => by
    have ih := flatMap_ite_nil p g xs
    by_cases hx : p x = true <;> simp [hx, ih]

theorem flatMap_ite_toList {β} (p : β → Bool) (g : β → Statement) :
    ∀ l : List β,
      (l.flatMap fun x => ((if p x then some (g x) else none : Option Statement)).toList)
        = ((l.filter p).map g)
  | [] => rfl
  | x :: xs => by
    have ih := flatMap_ite_toList p g xs
    by_cases hx : p x = true <;> simp [hx, ih]

theorem find?_key_self {α : Type _} {κ : Type _} [DecidableEq κ] (f : α → κ) (a : α)
    (p : α → Bool) (hp : ∀ x, p x = (f x == f a)) :
    ∀ {l : List α}, (l.map f).Nodup → a ∈ l → l.find? p = some a := by
  intro l
  induction l with
  | nil => intro _ h; cases h
  | cons y ys ih =>
    intro hn ha
    rw [List.map_cons, List.nodup_cons] at hn
    rcases List.mem_cons.mp ha with rfl | hmem
    · exact List.find?_cons_of_pos _ (by rw [hp]; exact beq_self_eq_true _)
    · have hne : f y ≠ f a := fun he => hn.1 (he ▸ List.mem_map_of_mem f hmem)
      rw [List.find?_cons_of_neg _ (by rw [hp]; simp [hne]), ih hn.2 hmem]

theorem getD_if_isEmpty (l : List Statement) :
    (if l.isEmpty then (none : Option (List Statement)) else some l).getD [] = l := by
  cases l <;> simp

/-! ## Concrete fixtures used by counterexamples and witnesses -/

/-- `CREATE TABLE t1 ()`. -/
def tableT1 : CreateTable := ⟨["t1"], [], false, none, ""⟩

/-- `CREATE TABLE t2 ()`. -/
def tableT2 : CreateTable := ⟨["t2"], [], false, none, ""⟩

/-- `CREATE TABLE bar (id INT)`. -/
def tableBar : CreateTable := ⟨["bar"], [⟨"id", "INT", []⟩], false, none, ""⟩

/-- `CREATE DOMAIN dom ...`. -/
def domainDom : CreateDomain := ⟨["dom"], ""⟩

/-- `CREATE UNIQUE INDEX title_idx ...`. -/
def indexTitle : CreateIndex := ⟨some ["title_idx"], false, ""⟩

/-- `ALTER TABLE bar ADD COLUMN c1 TEXT`. -/
def alterAddCol1 : Statement :=
  .alterTable ["bar"] false false [.addColumn true false ⟨"c1", "TEXT", []⟩ none] none none false

/-- `ALTER TABLE bar ADD COLUMN c2 TEXT`. -/
def alterAddCol2 : Statement :=
  .alterTable ["bar"] false false [.addColumn true false ⟨"c2", "TEXT", []⟩ none] none none false

/-- Template data with `up_down` unset (all other fields trivial). -/
def dataUnsetUpDown : TemplateData := ⟨⟨0, 0, 0, 0, 0, 0, 0, 0⟩, "", none, none, none, none⟩

/-! ## Claim C4 -/

/-- Claim C4, counterexample: `migrate` applied to the one-index schema and a
migration dropping that index empties the whole tree, yet it returns
`Ok(Some([]))`, not the `Ok(None)` the claim reserves for that case. -/
theorem c4_counterexample :
    migrate [.createIndex indexTitle]
        [.drop .index false [["title_idx"]] false false false false none] = .ok (some []) ∧
    decide ((Except.ok (some ([] : List Statement)) :
        Except MigrateError (Option (List Statement))) = .ok none) = false := by
  constructor <;> decide

/-- Claim C4 as amended: on success `migrate` always returns `Some(list)`
(possibly empty); it never returns `None`, not even when the entire tree
becomes empty. -/
theorem c4_amended (A M : List Statement) (o : Option (List Statement))
    (h : migrate A M = .ok o) : ∃ l, o = some l := by
  unfold migrate at h
  rcases hc : collectRewrites M A with e | rewritten
  · rw [hc] at h; cases h
  · rw [hc] at h; injection h with h; exact ⟨_, h.symm⟩

/-- Witness for `c4_amended` at `A = [] , M = []`. -/
theorem c4_amended_witness : ∃ l, (some ([] : List Statement)) = some l :=
  c4_amended [] [] (some []) rfl

/-! ## Claim C5 -/

/-- Claim C5, counterexample: on a tree holding a (perfectly parseable)
`ALTER TABLE` statement, the empty migration does not act as the identity —
the rewrite pass rejects every non-`Create*` schema statement with
`NotImplemented` regardless of the migration's contents. -/
theorem c5_counterexample :
    migrate [.alterTable ["foo"] false false [] none none false] [] =
      .error ⟨.notImplemented, some (.alterTable ["foo"] false false [] none none false), none⟩ ∧
    decide (migrate [.alterTable ["foo"] false false [] none none false] [] =
      .ok (some [.alterTable ["foo"] false false [] none none false])) = false := by
  constructor <;> decide

/-- Claim C5 as amended: the empty migration is the identity on every tree
consisting solely of supported `Create*` statements. -/
theorem c5_amended (A : List Statement) (h : ∀ s ∈ A, isCreate s = true) :
    migrate A [] = .ok (some A) := by
  have hrw : ∀ s ∈ A, rewriteOne s [] = .ok (some s) := by
    intro s hs
    have hc := h s hs
    cases s <;> simp_all [isCreate, rewriteOne]
  unfold migrate
  rw [collectRewrites_ok_self [] hrw]
  simp

/-- Witness for `c5_amended` at the one-table tree. -/
theorem c5_amended_witness :
    migrate [Statement.createTable tableT1] [] = .ok (some [Statement.createTable tableT1]) :=
  c5_amended [Statement.createTable tableT1] (by decide)

/-! ## Claim C6 -/

/-- Claim C6, confirmed: diffing `enum bug_status('open','critical')` against
`enum bug_status('new','open','assigned','closed','critical')` emits exactly
the three `ALTER TYPE ... ADD VALUE` statements `'new' BEFORE 'open'`,
`'assigned' AFTER 'open'`, `'closed' AFTER 'assigned'`, in that order. -/
theorem c6_enum_walk :
    diff [Statement.createType ["bug_status"] (.enum ["open", "critical"])]
      [Statement.createType ["bug_status"]
        (.enum ["new", "open", "assigned", "closed", "critical"])] =
    .ok (some [
      .alterType ⟨["bug_status"], .addValue ⟨false, "new", some (.before "open")⟩⟩,
      .alterType ⟨["bug_status"], .addValue ⟨false, "assigned", some (.after "open")⟩⟩,
      .alterType ⟨["bug_status"], .addValue ⟨false, "closed", some (.after "assigned")⟩⟩]) := by
  decide

/-! ## Claim C7 -/

/-- Claim C7, counterexample: the digit run `4102444800` denotes
`2100-01-01T00:00:00Z` when read as seconds (and lies before 2000 under every
other unit), so the claimed half-open interval `[2000-01-01, 2100-01-01)`
would reject it — yet `epoch_timestamp` accepts it, because
`validate_datetime` compares the calendar date inclusively on both ends. -/
theorem c7_counterexample :
    epochTimestampAccepts 4102444800 = true ∧
    specEpochAcceptsHalfOpen 4102444800 = false := by
  constructor <;> decide

theorem epochUnitOk_iff (n d : Nat) (hd : 0 < d) (hb : 47483 * d ≤ i64Max) :
    (n ≤ i64Max && validateDatetimeDays (n / d))
      = (minDateDays * d ≤ n && n < (maxDateDays + 1) * d) := by
  apply boolEqOfIff
  simp only [Bool.and_eq_true, decide_eq_true_eq, validateDatetimeDays, minDateDays,
    maxDateDays, i64Max] at *
  constructor
  · rintro ⟨_, h2, h3⟩
    exact ⟨(Nat.le_div_iff_mul_le hd).mp h2,
      (Nat.div_lt_iff_lt_mul hd).mp (Nat.lt_succ_of_le h3)⟩
  · rintro ⟨g1, g2⟩
    refine ⟨by omega, (Nat.le_div_iff_mul_le hd).mpr g1, ?_⟩
    exact Nat.lt_succ_iff.mp ((Nat.div_lt_iff_lt_mul hd).mpr g2)

/-- Claim C7 as amended: a digit run is accepted by `epoch_timestamp` iff some
interpretation (nanoseconds, microseconds, milliseconds or seconds since the
epoch) yields a UTC instant whose calendar date lies in the *closed* interval
`[2000-01-01, 2100-01-01]`. -/
theorem c7_amended (n : Nat) : epochTimestampAccepts n = specEpochAcceptsClosed n := by
  unfold epochTimestampAccepts specEpochAcceptsClosed epochNanosOk epochMicrosOk
    epochMillisOk epochSecondsOk
  rw [epochUnitOk_iff n 86400000000000 (by norm_num) (by norm_num [i64Max]),
    epochUnitOk_iff n 86400000000 (by norm_num) (by norm_num [i64Max]),
    epochUnitOk_iff n 86400000 (by norm_num) (by norm_num [i64Max]),
    epochUnitOk_iff n 86400 (by norm_num) (by norm_num [i64Max])]

/-! ## Claim C10 -/

/-- Claim C10, confirmed: the rewrite pass of `migrate` matches each schema
statement against at most one migration statement — the first statement of `M`
targeting it by kind and name; everything after that first match (in
particular further `ALTER TABLE`s on the same table) is ignored by the
rewrite pass. -/
theorem c10_first_match (sa sb : Statement) (M1 M2 : List Statement)
    (hc : isCreate sa = true) (h1 : ∀ s ∈ M1, targets sa s = false)
    (h2 : targets sa sb = true) :
    rewriteOne sa (M1 ++ sb :: M2) = Statement.migrate sa sb ∧
    rewriteOne sa (M1 ++ sb :: M2) = rewriteOne sa (M1 ++ [sb]) := by
  have hfind : ∀ M2' : List Statement, (M1 ++ sb :: M2').find? (targets sa) = some sb := by
    intro M2'
    rw [List.find?_append, List.find?_eq_none.mpr (fun x hx => by simp [h1 x hx]),
      List.find?_cons_of_pos _ h2]
    rfl
  have key : ∀ M2' : List Statement,
      rewriteOne sa (M1 ++ sb :: M2') = Statement.migrate sa sb := by
    intro M2'
    cases sa with
    | createTable a => simp only [rewriteOne, hfind M2']
    | createIndex a => simp only [rewriteOne, hfind M2']
    | createType n r => simp only [rewriteOne, hfind M2']
    | createExtension n i c r => simp only [rewriteOne, hfind M2']
    | createDomain d => simp only [rewriteOne, hfind M2']
    | alterTable n i o ops l oc ic => exact absurd hc (by simp [isCreate])
    | alterType a => exact absurd hc (by simp [isCreate])
    | drop o i ns c r p t tb => exact absurd hc (by simp [isCreate])
    | dropExtension ns i c => exact absurd hc (by simp [isCreate])
    | dropDomain dd => exact absurd hc (by simp [isCreate])
    | other d => exact absurd hc (by simp [isCreate])
  exact ⟨key M2, by rw [key M2, key []]⟩

/-- Witness for `c10_first_match`: of two `ALTER TABLE bar ADD COLUMN`
statements only the first is applied. -/
theorem c10_first_match_witness :
    rewriteOne (.createTable tableBar) ([] ++ alterAddCol1 :: [alterAddCol2]) =
      Statement.migrate (.createTable tableBar) alterAddCol1 ∧
    rewriteOne (.createTable tableBar) ([] ++ alterAddCol1 :: [alterAddCol2]) =
      rewriteOne (.createTable tableBar) ([] ++ [alterAddCol1]) :=
  c10_first_match (.createTable tableBar) alterAddCol1 [] [alterAddCol2] (by decide)
    (by simp) (by decide)

/-! ## Claim C1 -/

/-- The `DROP TABLE` statement the diff engine emits for a table of `A`
missing from `B`. -/
def dropTableStmt (a : CreateTable) : Statement :=
  .drop .table a.ifNotExists [a.name] false false false false none

theorem find?_createTable_map (a : CreateTable) :
    ∀ Bs : List CreateTable,
      (Bs.map Statement.createTable).find? (fun sb => match sb with
        | Statement.createTable b => a.name == b.name
        | _ => false)
      = (Bs.find? fun b => a.name == b.name).map Statement.createTable
  | [] => rfl
  | b :: bs => by
    simp only [List.map_cons, List.find?_cons]
    by_cases hb : (a.name == b.name) = true
    · rw [hb]
      rfl
    · rw [eq_false_of_ne_true hb]
      exact find?_createTable_map a bs

theorem find?_createTable_map_rev (b : CreateTable) :
    ∀ As : List CreateTable,
      (As.map Statement.createTable).find? (fun sa => match sa with
        | Statement.createTable a => a.name == b.name
        | _ => false)
      = (As.find? fun a => a.name == b.name).map Statement.createTable
  | [] => rfl
  | a :: as' => by
    simp only [List.map_cons, List.find?_cons]
    by_cases ha : (a.name == b.name) = true
    · rw [ha]
      rfl
    · rw [eq_false_of_ne_true ha]
      exact find?_createTable_map_rev b as'

theorem find?_targets_drops (a : CreateTable) :
    ∀ l : List CreateTable,
      (l.map dropTableStmt).find? (targets (Statement.createTable a))
      = (l.find? fun x => x.name == a.name).map dropTableStmt
  | [] => rfl
  | x :: xs => by
    have hred : targets (Statement.createTable a) (dropTableStmt x) = (x.name == a.name) := by
      simp [targets, dropTableStmt]
    simp only [List.map_cons, List.find?_cons, hred]
    by_cases hx : (x.name == a.name) = true
    · rw [hx]
      rfl
    · rw [eq_false_of_ne_true hx]
      exact find?_targets_drops a xs

theorem find?_targets_creates (a : CreateTable) (l : List CreateTable) :
    (l.map Statement.createTable).find? (targets (Statement.createTable a)) = none := by
  apply List.find?_eq_none.mpr
  intro x hx
  obtain ⟨b, _, rfl⟩ := List.mem_map.mp hx
  simp [targets]

/-- Claim C1, counterexample: with `A = [t1]` and `B = [t2, t1]` the diff is
`[CREATE TABLE t2]`, but applying it to `A` appends `t2` *after* the
rewritten originals, yielding `[t1, t2] ≠ B`: the round trip does not
reproduce `B`'s statement order. -/
theorem c1_counterexample :
    diff [Statement.createTable tableT1]
      [Statement.createTable tableT2, Statement.createTable tableT1] =
      .ok (some [Statement.createTable tableT2]) ∧
    migrate [Statement.createTable tableT1] [Statement.createTable tableT2] =
      .ok (some [Statement.createTable tableT1, Statement.createTable tableT2]) ∧
    decide (([Statement.createTable tableT1, Statement.createTable tableT2] : List Statement)
      = [Statement.createTable tableT2, Statement.createTable tableT1]) = false := by
  refine ⟨by decide, by decide, by decide⟩

/-- Claim C1 as amended: for trees of `CREATE TABLE` statements in which `A`'s
table names are distinct, tables sharing a name in `A` and `B` are structurally
equal, and `B` lists the shared tables first (in `A`'s relative order) followed
by its new tables, `diff(A, B)` succeeds and
`migrate(A, diff(A, B).unwrap_or([]))` yields exactly `B`.  (Without the order
condition the statement fails: see `c1_counterexample`.) -/
theorem c1_amended (As Bs : List CreateTable)
    (hA : (As.map (·.name)).Nodup)
    (hcommon : ∀ a ∈ As, ∀ b ∈ Bs, a.name = b.name → a = b)
    (horder : Bs = (As.filter fun a => decide (a.name ∈ Bs.map (·.name))) ++
      (Bs.filter fun b => !decide (b.name ∈ As.map (·.name)))) :
    ∃ od, diff (As.map Statement.createTable) (Bs.map Statement.createTable) = .ok od ∧
      migrate (As.map Statement.createTable) (od.getD [])
        = .ok (some (Bs.map Statement.createTable)) := by
  have hpart1 : ∀ a ∈ As,
      diffOne (Bs.map Statement.createTable) (Statement.createTable a)
        = .ok (if decide (a.name ∈ Bs.map (·.name)) then none
               else some [dropTableStmt a]) := by
    intro a ha
    rw [diffOne, findAndCompareCreateTable, findAndCompare, find?_createTable_map]
    by_cases hk : a.name ∈ Bs.map (·.name)
    · obtain ⟨bn, hbmem, hbn⟩ := List.mem_map.mp hk
      have hsome : (Bs.find? fun b => a.name == b.name).isSome := by
        apply List.find?_isSome.mpr
        exact ⟨bn, hbmem, by simp [hbn]⟩
      obtain ⟨b0, hb0⟩ := Option.isSome_iff_exists.mp hsome
      rw [hb0]
      have hname : a.name = b0.name := by
        have h := List.find?_some hb0
        simp only [beq_iff_eq] at h
        exact h
      have hab : a = b0 := hcommon a ha b0 (List.mem_of_find?_eq_some hb0) hname
      subst hab
      simp [Statement.diff, compareCreateTable, hk]
    · rw [List.find?_eq_none.mpr (fun b hb => by
        simp only [beq_iff_eq]
        intro he
        exact hk (by rw [he]; exact List.mem_map_of_mem _ hb))]
      simp [hk, dropTableStmt]
  have hpart2 : ∀ b ∈ Bs,
      createdInOther (As.map Statement.createTable) (Statement.createTable b)
        = .ok (if decide (b.name ∈ As.map (·.name)) then none
               else some [Statement.createTable b]) := by
    intro b hb
    simp only [createdInOther]
    rw [find?_createTable_map_rev]
    by_cases hin : b.name ∈ As.map (·.name)
    · obtain ⟨an, hamem, han⟩ := List.mem_map.mp hin
      have hsome : (As.find? fun a => a.name == b.name).isSome := by
        apply List.find?_isSome.mpr
        exact ⟨an, hamem, by simp [han]⟩
      obtain ⟨a0, ha0⟩ := Option.isSome_iff_exists.mp hsome
      rw [ha0]
      simp [hin]
    · rw [List.find?_eq_none.mpr (fun a ha' => by
        simp only [beq_iff_eq]
        intro he
        exact hin (by rw [← he]; exact List.mem_map_of_mem _ ha'))]
      simp [hin]
  have hp1 : collectDiffs (diffOne (Bs.map Statement.createTable))
      (As.map Statement.createTable)
      = .ok ((As.filter fun a => !decide (a.name ∈ Bs.map (·.name))).map dropTableStmt) := by
    rw [collectDiffs_map _ Statement.createTable
      (fun a => if decide (a.name ∈ Bs.map (·.name)) then none else some [dropTableStmt a])
      As hpart1]
    congr 1
    exact flatMap_ite_nil _ dropTableStmt As
  have hp2 : collectDiffs (createdInOther (As.map Statement.createTable))
      (Bs.map Statement.createTable)
      = .ok ((Bs.filter fun b => !decide (b.name ∈ As.map (·.name))).map
          Statement.createTable) := by
    rw [collectDiffs_map _ Statement.createTable
      (fun b => if decide (b.name ∈ As.map (·.name)) then none
        else some [Statement.createTable b])
      Bs hpart2]
    congr 1
    exact flatMap_ite_nil _ Statement.createTable Bs
  have hdiff : diff (As.map Statement.createTable) (Bs.map Statement.createTable)
      = (if (((As.filter fun a => !decide (a.name ∈ Bs.map (·.name))).map dropTableStmt) ++
            ((Bs.filter fun b => !decide (b.name ∈ As.map (·.name))).map
              Statement.createTable)).isEmpty
         then (Except.ok none : Except DiffError (Option (List Statement)))
         else Except.ok (some (((As.filter fun a => !decide (a.name ∈ Bs.map (·.name))).map
              dropTableStmt) ++
            ((Bs.filter fun b => !decide (b.name ∈ As.map (·.name))).map
              Statement.createTable)))) := by
    unfold diff
    rw [hp1, hp2]
  refine ⟨if (((As.filter fun a => !decide (a.name ∈ Bs.map (·.name))).map dropTableStmt) ++
      ((Bs.filter fun b => !decide (b.name ∈ As.map (·.name))).map
        Statement.createTable)).isEmpty
    then none
    else some (((As.filter fun a => !decide (a.name ∈ Bs.map (·.name))).map dropTableStmt) ++
      ((Bs.filter fun b => !decide (b.name ∈ As.map (·.name))).map
        Statement.createTable)), ?_, ?_⟩
  · rw [hdiff]
    split <;> rfl
  rw [getD_if_isEmpty]
  have hrw : ∀ a ∈ As,
      rewriteOne (Statement.createTable a)
          (((As.filter fun x => !decide (x.name ∈ Bs.map (·.name))).map dropTableStmt) ++
           ((Bs.filter fun b => !decide (b.name ∈ As.map (·.name))).map
             Statement.createTable))
        = .ok (if decide (a.name ∈ Bs.map (·.name)) then some (Statement.createTable a)
               else none) := by
    intro a ha
    have hcre := find?_targets_creates a
      (Bs.filter fun b => !decide (b.name ∈ As.map (·.name)))
    by_cases hk : a.name ∈ Bs.map (·.name)
    · have hnone2 : (As.filter fun x => !decide (x.name ∈ Bs.map (·.name))).find?
          (fun x => x.name == a.name) = none := by
        apply List.find?_eq_none.mpr
        intro x hx
        have hxf := List.mem_filter.mp hx
        simp only [beq_iff_eq]
        intro he
        have hmem : decide (x.name ∈ Bs.map (·.name)) = true := by
          rw [he]; exact decide_eq_true hk
        have hb := hxf.2
        rw [hmem] at hb
        simp at hb
      have hdnone : ((As.filter fun x => !decide (x.name ∈ Bs.map (·.name))).map
          dropTableStmt).find? (targets (Statement.createTable a)) = none := by
        rw [find?_targets_drops, hnone2]
        rfl
      simp only [rewriteOne, List.find?_append, hdnone, hcre]
      simp [hk]
    · have hadrop : a ∈ As.filter fun x => !decide (x.name ∈ Bs.map (·.name)) :=
        List.mem_filter.mpr ⟨ha, by simp [hk]⟩
      have hnodup : ((As.filter fun x => !decide (x.name ∈ Bs.map (·.name))).map
          (·.name)).Nodup :=
        List.Nodup.sublist (List.Sublist.map _ (List.filter_sublist As)) hA
      have hfself : (As.filter fun x => !decide (x.name ∈ Bs.map (·.name))).find?
          (fun x => x.name == a.name) = some a :=
        find?_key_self (fun x => x.name) a (fun x => x.name == a.name)
          (fun x => boolEqOfIff (by simp [beq_iff_eq]))
          hnodup hadrop
      have hdr : ((As.filter fun x => !decide (x.name ∈ Bs.map (·.name))).map
          dropTableStmt).find? (targets (Statement.createTable a))
          = some (dropTableStmt a) := by
        rw [find?_targets_drops, hfself]
        rfl
      simp only [rewriteOne, List.find?_append, hdr]
      have hmig : Statement.migrate (Statement.createTable a) (dropTableStmt a)
          = .ok none := by
        simp [Statement.migrate, dropTableStmt, List.contains]
      simp [hmig, hk]
  have hcoll : collectRewrites
      (((As.filter fun x => !decide (x.name ∈ Bs.map (·.name))).map dropTableStmt) ++
       ((Bs.filter fun b => !decide (b.name ∈ As.map (·.name))).map Statement.createTable))
      (As.map Statement.createTable)
      = .ok ((As.filter fun a => decide (a.name ∈ Bs.map (·.name))).map
          Statement.createTable) := by
    rw [collectRewrites_map _ Statement.createTable
      (fun a => if decide (a.name ∈ Bs.map (·.name)) then some (Statement.createTable a)
        else none)
      As hrw]
    congr 1
    exact flatMap_ite_toList _ Statement.createTable As
  have happend : (((As.filter fun x => !decide (x.name ∈ Bs.map (·.name))).map
        dropTableStmt) ++
      ((Bs.filter fun b => !decide (b.name ∈ As.map (·.name))).map
        Statement.createTable)).filter isCreate
      = (Bs.filter fun b => !decide (b.name ∈ As.map (·.name))).map
        Statement.createTable := by
    rw [List.filter_append]
    have h1 : ((As.filter fun x => !decide (x.name ∈ Bs.map (·.name))).map
        dropTableStmt).filter isCreate = [] := by
      apply List.filter_eq_nil.mpr
      intro x hx
      obtain ⟨a', _, rfl⟩ := List.mem_map.mp hx
      simp [isCreate, dropTableStmt]
    have h2 : ((Bs.filter fun b => !decide (b.name ∈ As.map (·.name))).map
        Statement.createTable).filter isCreate
        = (Bs.filter fun b => !decide (b.name ∈ As.map (·.name))).map
          Statement.createTable := by
      apply List.filter_eq_self.mpr
      intro x hx
      obtain ⟨b', _, rfl⟩ := List.mem_map.mp hx
      simp [isCreate]
    rw [h1, h2, List.nil_append]
  unfold migrate
  rw [hcoll, happend]
  have hmaps : Bs.map Statement.createTable
      = ((As.filter fun a => decide (a.name ∈ Bs.map (·.name))).map Statement.createTable) ++
        ((Bs.filter fun b => !decide (b.name ∈ As.map (·.name))).map
          Statement.createTable) := by
    conv_lhs => rw [horder]
    rw [List.map_append]
  rw [hmaps]

/-- Witness for `c1_amended` at `A = [t1]`, `B = [t1, t2]`. -/
theorem c1_amended_witness :
    ∃ od, diff ([tableT1].map Statement.createTable)
        ([tableT1, tableT2].map Statement.createTable) = .ok od ∧
      migrate ([tableT1].map Statement.createTable) (od.getD [])
        = .ok (some ([tableT1, tableT2].map Statement.createTable)) :=
  c1_amended [tableT1] [tableT1, tableT2] (by decide) (by decide) (by decide)

/-! ## Claim C2 -/

/-- Claim C2, counterexample: the two-table trees `[t1, t2]` and `[t2, t1]`
are not statement-equal, yet their diff is `Ok(None)` — `Ok(None)` does not
imply statement equality. -/
theorem c2_counterexample :
    diff [Statement.createTable tableT1, Statement.createTable tableT2]
      [Statement.createTable tableT2, Statement.createTable tableT1] = .ok none ∧
    decide (([Statement.createTable tableT1, Statement.createTable tableT2] : List Statement)
      = [Statement.createTable tableT2, Statement.createTable tableT1]) = false := by
  constructor <;> decide

/-- Claim C2 as amended: `diff(A, A) = Ok(None)` for every tree `A` whose
statements are of the four self-comparable `Create*` kinds (no
`CreateExtension`, whose self-diff is a `NotImplemented` error) and whose
(kind, name) keys are pairwise distinct.  The converse direction of the
claimed `iff` fails (`c2_counterexample`). -/
theorem c2_amended (A : List Statement) (hsup : ∀ s ∈ A, selfComparable s = true)
    (hkeys : (A.map keyOf).Nodup) : diff A A = .ok none := by
  have hpart1 : ∀ sa ∈ A, diffOne A sa = .ok none := by
    intro sa hsa
    have hs := hsup sa hsa
    cases sa with
    | createTable a =>
      have hfind := find?_key_self keyOf (Statement.createTable a)
        (fun sb => match sb with
          | .createTable b => a.name == b.name
          | _ => false)
        (fun x => boolEqOfIff (by cases x <;> simp [keyOf, beq_iff_eq] <;> exact eq_comm))
        hkeys hsa
      simp only [diffOne, findAndCompareCreateTable, findAndCompare, hfind]
      simp [Statement.diff, compareCreateTable]
    | createIndex a =>
      have hfind := find?_key_self keyOf (Statement.createIndex a)
        (fun sb => match sb with
          | .createIndex b => a.name == b.name
          | _ => false)
        (fun x => boolEqOfIff (by cases x <;> simp [keyOf, beq_iff_eq] <;> exact eq_comm))
        hkeys hsa
      simp only [diffOne, findAndCompareCreateIndex, findAndCompare, hfind]
      simp [Statement.diff, compareCreateIndex]
    | createType n rep =>
      have hfind := find?_key_self keyOf (Statement.createType n rep)
        (fun sb => match sb with
          | .createType bName _ => n == bName
          | _ => false)
        (fun x => boolEqOfIff (by cases x <;> simp [keyOf, beq_iff_eq] <;> exact eq_comm))
        hkeys hsa
      simp only [diffOne, findAndCompareCreateType, findAndCompare, hfind]
      simp [Statement.diff, compareCreateType]
    | createDomain a =>
      have hfind := find?_key_self keyOf (Statement.createDomain a)
        (fun sb => match sb with
          | .createDomain b => b.name == a.name
          | _ => false)
        (fun x => boolEqOfIff (by cases x <;> simp [keyOf, beq_iff_eq] <;> exact eq_comm))
        hkeys hsa
      simp only [diffOne, findAndCompareCreateDomain, hfind]
      simp [Statement.diff, compareCreateDomain]
    | createExtension n i c r => exact absurd hs (by simp [selfComparable])
    | alterTable n i o ops l oc ic => exact absurd hs (by simp [selfComparable])
    | alterType a => exact absurd hs (by simp [selfComparable])
    | drop o i ns c r p tm tb => exact absurd hs (by simp [selfComparable])
    | dropExtension ns i c => exact absurd hs (by simp [selfComparable])
    | dropDomain dd => exact absurd hs (by simp [selfComparable])
    | other d => exact absurd hs (by simp [selfComparable])
  have hpart2 : ∀ sb ∈ A, createdInOther A sb = .ok none := by
    intro sb hsb
    have hs := hsup sb hsb
    cases sb with
    | createTable b =>
      have hfind := find?_key_self keyOf (Statement.createTable b)
        (fun sa => match sa with
          | .createTable a => a.name == b.name
          | _ => false)
        (fun x => boolEqOfIff (by cases x <;> simp [keyOf, beq_iff_eq] <;> exact eq_comm))
        hkeys hsb
      simp [createdInOther, hfind]
    | createIndex b =>
      have hfind := find?_key_self keyOf (Statement.createIndex b)
        (fun sa => match sa with
          | .createIndex a => a.name == b.name
          | _ => false)
        (fun x => boolEqOfIff (by cases x <;> simp [keyOf, beq_iff_eq] <;> exact eq_comm))
        hkeys hsb
      simp [createdInOther, hfind]
    | createType bName rep =>
      have hfind := find?_key_self keyOf (Statement.createType bName rep)
        (fun sa => match sa with
          | .createType aName _ => aName == bName
          | _ => false)
        (fun x => boolEqOfIff (by cases x <;> simp [keyOf, beq_iff_eq] <;> exact eq_comm))
        hkeys hsb
      simp [createdInOther, hfind]
    | createDomain b =>
      have hfind := find?_key_self keyOf (Statement.createDomain b)
        (fun sa => match sa with
          | .createDomain a => a.name == b.name
          | _ => false)
        (fun x => boolEqOfIff (by cases x <;> simp [keyOf, beq_iff_eq] <;> exact eq_comm))
        hkeys hsb
      simp [createdInOther, hfind]
    | createExtension n i c r => exact absurd hs (by simp [selfComparable])
    | alterTable n i o ops l oc ic => exact absurd hs (by simp [selfComparable])
    | alterType a => exact absurd hs (by simp [selfComparable])
    | drop o i ns c r p tm tb => exact absurd hs (by simp [selfComparable])
    | dropExtension ns i c => exact absurd hs (by simp [selfComparable])
    | dropDomain dd => exact absurd hs (by simp [selfComparable])
    | other d => exact absurd hs (by simp [selfComparable])
  unfold diff
  rw [collectDiffs_ok_none _ hpart1, collectDiffs_ok_none _ hpart2]
  rfl

/-- Witness for `c2_amended` at the one-table tree. -/
theorem c2_amended_witness :
    diff [Statement.createTable tableT1] [Statement.createTable tableT1] = .ok none :=
  c2_amended [Statement.createTable tableT1] (by decide) (by decide)

/-! ## Claim C3 -/

/-- Claim C3, counterexample: a `CreateDomain` with no counterpart in `B`
produces *no* output at all (`find_and_compare_create_domain` has no drop
fallback), contradicting the claim that every unmatched supported statement
yields a `Drop` of the appropriate kind. -/
theorem c3_counterexample :
    diff [Statement.createDomain domainDom] [] = .ok none ∧
    (none : Option (List Statement)).isSome = false := by
  constructor <;> decide

/-- Claim C3 as amended: for the kinds `CreateTable`, *named* `CreateIndex`,
`CreateType` and `CreateExtension` (exactly those with a `some` result of
`dropFor`), a statement of `A` without a (kind, name) match in `B` contributes
the corresponding `Drop` statement to the diff output; an unmatched
`CreateDomain` contributes nothing (`c3_counterexample`). -/
theorem c3_amended (A B : List Statement) (sa d : Statement) (hmem : sa ∈ A)
    (hd : dropFor sa = some d) (hno : ∀ sb ∈ B, keyOf sb ≠ keyOf sa)
    (r : Option (List Statement)) (hr : diff A B = .ok r) :
    ∃ res, r = some res ∧ d ∈ res := by
  have hfn : ∀ (p : Statement → Bool), (∀ x, p x = (keyOf x == keyOf sa)) →
      B.find? p = none := by
    intro p hp
    apply List.find?_eq_none.mpr
    intro x hx
    rw [hp x]
    simp [hno x hx]
  have hone : diffOne B sa = .ok (some [d]) := by
    cases sa with
    | createTable a =>
      rw [diffOne, findAndCompareCreateTable, findAndCompare,
        hfn _ (fun x => boolEqOfIff (by cases x <;> simp [keyOf, beq_iff_eq] <;> exact eq_comm))]
      have hd2 : Statement.drop .table a.ifNotExists [a.name] false false false false none = d :=
        Option.some.inj hd
      rw [hd2]
    | createIndex a =>
      rw [diffOne, findAndCompareCreateIndex, findAndCompare,
        hfn _ (fun x => boolEqOfIff (by cases x <;> simp [keyOf, beq_iff_eq] <;> exact eq_comm))]
      cases hn : a.name with
      | none => rw [dropFor, hn] at hd; exact Option.noConfusion hd
      | some n =>
        rw [dropFor, hn] at hd
        have hd2 : Statement.drop .index a.ifNotExists [n] false false false false none = d :=
          Option.some.inj hd
        show Except.ok (some [Statement.drop .index a.ifNotExists [n]
          false false false false none]) = .ok (some [d])
        rw [hd2]
    | createType n rep =>
      rw [diffOne, findAndCompareCreateType, findAndCompare,
        hfn _ (fun x => boolEqOfIff (by cases x <;> simp [keyOf, beq_iff_eq] <;> exact eq_comm))]
      have hd2 : Statement.drop .typ false [n] false false false false none = d :=
        Option.some.inj hd
      rw [hd2]
    | createExtension n i c rest =>
      rw [diffOne, findAndCompareCreateExtension, findAndCompare,
        hfn _ (fun x => boolEqOfIff (by cases x <;> simp [keyOf, beq_iff_eq] <;> exact eq_comm))]
      have hd2 : Statement.dropExtension [n] i (if c then some .cascade else none) = d :=
        Option.some.inj hd
      rw [hd2]
    | createDomain a => exact Option.noConfusion hd
    | alterTable n i o ops l oc ic => exact Option.noConfusion hd
    | alterType a => exact Option.noConfusion hd
    | drop o i ns c r' p tm tb => exact Option.noConfusion hd
    | dropExtension ns i c => exact Option.noConfusion hd
    | dropDomain dd => exact Option.noConfusion hd
    | other dsc => exact Option.noConfusion hd
  unfold diff at hr
  rcases h1 : collectDiffs (diffOne B) A with e | p1
  · rw [h1] at hr; cases hr
  · rcases h2 : collectDiffs (createdInOther A) B with e | p2
    · rw [h1, h2] at hr; cases hr
    · rw [h1, h2] at hr
      have hdmem : d ∈ p1 := collectDiffs_mem h1 hmem hone (by simp)
      have hne : ¬((p1 ++ p2).isEmpty = true) := by
        cases p1 with
        | nil => cases hdmem
        | cons x xs => simp
      have hr2 : (if (p1 ++ p2).isEmpty then (.ok none :
          Except DiffError (Option (List Statement))) else .ok (some (p1 ++ p2))) = .ok r := hr
      rw [if_neg hne] at hr2
      injection hr2 with hr2
      exact ⟨p1 ++ p2, hr2.symm, List.mem_append_left _ hdmem⟩

/-- Witness for `c3_amended`: a table present in `A = [t1]` and absent from
`B = []` contributes `DROP TABLE t1`. -/
theorem c3_amended_witness :
    ∃ res, (some [Statement.drop .table false [["t1"]] false false false false none] :
        Option (List Statement)) = some res ∧
      Statement.drop .table false [["t1"]] false false false false none ∈ res :=
  c3_amended [Statement.createTable tableT1] [] (Statement.createTable tableT1)
    (Statement.drop .table false [["t1"]] false false false false none)
    (by decide) (by decide) (by simp)
    (some [Statement.drop .table false [["t1"]] false false false false none]) (by decide)

/-! ## Claim C8 -/

theorem resolveTokens_elide_upDown (data : TemplateData) (h : data.upDown = none) :
    ∀ (pre : List Token) (u : UpDown) (post : List Token),
      resolveTokens data (pre ++ .dot :: .upDown u :: post)
        = resolveTokens data pre ++ resolveTokens data post
  | [], u, post => by
    simp [resolveTokens, Token.resolve, UpDown.resolve, isDotTok, headIsUpDownTok, h]
  | t :: pre', u, post => by
    have ih := resolveTokens_elide_upDown data h pre' u post
    cases pre' with
    | nil =>
      simp [resolveTokens, Token.resolve, UpDown.resolve, isDotTok, headIsUpDownTok, h]
    | cons t2 rest2 =>
      simp only [resolveTokens, List.append_eq, List.cons_append, List.head?_cons] at ih ⊢
      rw [ih]
      simp [String.append_assoc]

theorem resolveTokens_keep_doUndo (data : TemplateData) (h : data.upDown = none) :
    ∀ (pre : List Token) (d' : DoUndo) (post : List Token),
      resolveTokens data (pre ++ .dot :: .doUndo d' :: post)
        = resolveTokens data pre ++ ("." ++ resolveTokens data post)
  | [], d', post => by
    simp [resolveTokens, Token.resolve, DoUndo.resolve, isDotTok, headIsUpDownTok, h]
  | t :: pre', d', post => by
    have ih := resolveTokens_keep_doUndo data h pre' d' post
    cases pre' with
    | nil =>
      simp [resolveTokens, Token.resolve, DoUndo.resolve, isDotTok, headIsUpDownTok, h]
    | cons t2 rest2 =>
      simp only [resolveTokens, List.append_eq, List.cons_append, List.head?_cons] at ih ⊢
      rw [ih]
      simp [String.append_assoc]

/-- Claim C8 as amended: with `data.up_down` unset, every `UpDown` and every
`DoUndo` token resolves to the empty string, and the `Dot` separator
immediately preceding an `UpDown` token is elided — but a `Dot` immediately
preceding a `DoUndo` token is *not* elided and is emitted verbatim. -/
theorem c8_amended (data : TemplateData) (h : data.upDown = none) :
    (∀ u : UpDown, Token.resolve (.upDown u) data = "") ∧
    (∀ d' : DoUndo, Token.resolve (.doUndo d') data = "") ∧
    (∀ (pre post : List Token) (u : UpDown),
      resolveTokens data (pre ++ .dot :: .upDown u :: post)
        = resolveTokens data pre ++ resolveTokens data post) ∧
    (∀ (pre post : List Token) (d' : DoUndo),
      resolveTokens data (pre ++ .dot :: .doUndo d' :: post)
        = resolveTokens data pre ++ ("." ++ resolveTokens data post)) :=
  ⟨fun u => by simp [Token.resolve, UpDown.resolve, h],
   fun d' => by simp [Token.resolve, DoUndo.resolve, h],
   fun pre post u => resolveTokens_elide_upDown data h pre u post,
   fun pre post d' => resolveTokens_keep_doUndo data h pre d' post⟩

/-- Witness for `c8_amended` at concrete data and token lists. -/
theorem c8_amended_witness :
    (∀ u : UpDown, Token.resolve (.upDown u) dataUnsetUpDown = "") ∧
    (∀ d' : DoUndo, Token.resolve (.doUndo d') dataUnsetUpDown = "") ∧
    (∀ (pre post : List Token) (u : UpDown),
      resolveTokens dataUnsetUpDown (pre ++ .dot :: .upDown u :: post)
        = resolveTokens dataUnsetUpDown pre ++ resolveTokens dataUnsetUpDown post) ∧
    (∀ (pre post : List Token) (d' : DoUndo),
      resolveTokens dataUnsetUpDown (pre ++ .dot :: .doUndo d' :: post)
        = resolveTokens dataUnsetUpDown pre ++ ("." ++ resolveTokens dataUnsetUpDown post)) :=
  c8_amended dataUnsetUpDown rfl

/-- Claim C8, counterexample: resolving the segment `Dot, DoUndo(Undo),
Extension` with `up_down` unset yields `"..sql"` — the `Dot` immediately
preceding the suppressed `DoUndo` token is *not* elided, contrary to the
claim (which would give `".sql"`). -/
theorem c8_counterexample :
    PathTemplate.resolve ⟨[⟨.file, [.dot, .doUndo .undo, .extension]⟩]⟩ dataUnsetUpDown
      = "..sql" ∧
    decide (("..sql" : String) = ".sql") = false := by
  constructor <;> decide

/-! ## Claim C9 -/

theorem modifyLast_cons_of_ne_nil (f : α → α) (x : α) {l : List α} (h : l ≠ []) :
    modifyLast f (x :: l) = x :: modifyLast f l := by
  cases l with
  | nil => exact absurd rfl h
  | cons y ys => rfl

theorem modifyLast_ne_nil (f : α → α) {l : List α} (h : l ≠ []) : modifyLast f l ≠ [] := by
  cases l with
  | nil => exact absurd rfl h
  | cons y ys => cases ys <;> simp [modifyLast]

theorem modifyLast_idem (f : α → α) (hf : ∀ x, f (f x) = f x) :
    ∀ l : List α, modifyLast f (modifyLast f l) = modifyLast f l
  | [] => rfl
  | [x] => by simp [modifyLast, hf]
  | x :: y :: ys => by
    rw [modifyLast_cons_of_ne_nil f x (by simp),
      modifyLast_cons_of_ne_nil f x (modifyLast_ne_nil f (by simp)),
      modifyLast_idem f hf (y :: ys)]

theorem withUpDownSegment_idem (s : Segment) :
    withUpDownSegment (withUpDownSegment s) = withUpDownSegment s := by
  by_cases hc : isUpDownTok s.tokens.dropLast.getLast? = true
  · have h1 : withUpDownSegment s =
        ⟨s.kind, s.tokens.dropLast ++ [(s.tokens.getLast?).getD Token.extension]⟩ := by
      simp [withUpDownSegment, hc]
    rw [h1]
    simp [withUpDownSegment, List.dropLast_concat, List.getLast?_concat, hc]
  · have h1 : withUpDownSegment s =
        ⟨s.kind, s.tokens.dropLast ++
          [Token.dot, Token.upDown .up, (s.tokens.getLast?).getD Token.extension]⟩ := by
      simp [withUpDownSegment, hc]
    rw [h1]
    have e1 : s.tokens.dropLast ++
        [Token.dot, Token.upDown .up, (s.tokens.getLast?).getD Token.extension]
        = (s.tokens.dropLast ++ [Token.dot, Token.upDown .up]) ++
          [(s.tokens.getLast?).getD Token.extension] := by simp
    have e2 : s.tokens.dropLast ++ [Token.dot, Token.upDown .up]
        = (s.tokens.dropLast ++ [Token.dot]) ++ [Token.upDown .up] := by simp
    simp only [withUpDownSegment, e1, List.dropLast_concat, List.getLast?_concat]
    rw [e2]
    simp [isUpDownTok]

/-- Claim C9, confirmed: `with_up_down` is idempotent on every template, and it
is a no-op on any template whose final segment ends with an `UpDown` or
`DoUndo` token immediately followed by the extension token. -/
theorem c9_with_up_down (t : PathTemplate) :
    PathTemplate.withUpDown (PathTemplate.withUpDown t) = PathTemplate.withUpDown t ∧
    (∀ (segs : List Segment) (k : SegmentKind) (pre : List Token) (u : Token),
      isUpDownTok (some u) = true →
      t.segments = segs ++ [⟨k, pre ++ [u, Token.extension]⟩] →
      PathTemplate.withUpDown t = t) := by
  constructor
  · show (⟨modifyLast withUpDownSegment (modifyLast withUpDownSegment t.segments)⟩ :
      PathTemplate) = ⟨modifyLast withUpDownSegment t.segments⟩
    rw [modifyLast_idem withUpDownSegment withUpDownSegment_idem]
  · intro segs k pre u hu hsegs
    have hfinal : withUpDownSegment ⟨k, pre ++ [u, Token.extension]⟩
        = ⟨k, pre ++ [u, Token.extension]⟩ := by
      have e1 : pre ++ [u, Token.extension] = (pre ++ [u]) ++ [Token.extension] := by simp
      simp only [withUpDownSegment, e1, List.dropLast_concat, List.getLast?_concat,
        Option.getD_some]
      simp [hu]
    show (⟨modifyLast withUpDownSegment t.segments⟩ : PathTemplate) = t
    rw [hsegs, modifyLast_concat, hfinal, ← hsegs]

/-- Witness for `c9_with_up_down` at a concrete template ending in
`UpDown(Up), Extension`. -/
theorem c9_with_up_down_witness :
    PathTemplate.withUpDown (PathTemplate.withUpDown
        ⟨[⟨.file, [.name "m", .upDown .up, .extension]⟩]⟩)
      = PathTemplate.withUpDown ⟨[⟨.file, [.name "m", .upDown .up, .extension]⟩]⟩ ∧
    PathTemplate.withUpDown ⟨[⟨.file, [.name "m", .upDown .up, .extension]⟩]⟩
      = ⟨[⟨.file, [.name "m", .upDown .up, .extension]⟩]⟩ :=
  have H := c9_with_up_down ⟨[⟨.file, [.name "m", .upDown .up, .extension]⟩]⟩
  ⟨H.1, H.2 [] .file [.name "m"] (.upDown .up) rfl rfl⟩

end SqlSchema
